import Mathlib

/-!
Verification of the monitoring and alerting engine of `Dia.py`
(class `DiabeticPatientMonitor`).

Python floats are embedded as exact rationals `ℚ`; the fragment of the
program touched by the claims only performs field arithmetic, comparisons
and one rounding step, all of which are exact over `ℚ`.
`round(x, 1)` (Python) is embedded with Mathlib's `round` (half-up instead
of Python's half-to-even tie-breaking; no statement below evaluates it at a
tie, where the two conventions could differ).
-/

namespace Dia

/-- Alert categories emitted by the monitor: three from
`check_glucose_alerts` and two from `log_symptoms`. -/
inductive AlertType
  | hypoglycemia
  | severeHyperglycemia
  | hyperglycemia
  | hypoSymptoms
  | hyperSymptoms
  deriving DecidableEq

/-- The five qualitative glucose trend labels of
`simulate_glucose_measurement` (rendered as arrows in the source). -/
inductive TrendLabel
  | strongUp
  | up
  | stable
  | down
  | strongDown
  deriving DecidableEq

/-- The configuration fields of `load_config` that the monitoring core
reads (`alert_thresholds` and `prediction_settings`). -/
structure Config where
  hypoglycemia : ℚ
  hyperglycemia : ℚ
  severeHyperglycemia : ℚ
  ketoacidosisRisk : ℚ
  hypoSymptomsSeverity : ℚ
  windowSize : ℕ
  forecastHours : ℕ
  deriving DecidableEq

/-- The default configuration returned by `load_config` when the
configuration file is absent. -/
def defaultConfig : Config where
  hypoglycemia := 70
  hyperglycemia := 180
  severeHyperglycemia := 250
  ketoacidosisRisk := 3/2
  hypoSymptomsSeverity := 7
  windowSize := 10
  forecastHours := 4

/-- `check_glucose_alerts` (Dia.py:234): hypoglycemia is checked first,
then severe hyperglycemia, then hyperglycemia, with strict comparisons;
the alert sent (if any) is returned as a value. -/
def check_glucose_alerts (cfg : Config) (glucose_value : ℚ) : Option AlertType :=
  if glucose_value < cfg.hypoglycemia then some .hypoglycemia
  else if glucose_value > cfg.severeHyperglycemia then some .severeHyperglycemia
  else if glucose_value > cfg.hyperglycemia then some .hyperglycemia
  else none

/-- Trend derivation of `simulate_glucose_measurement` (Dia.py:141-155),
factored as the standalone classifier the spec calls `classify`. -/
def classify (current : ℚ) (previous : Option ℚ) : TrendLabel :=
  match previous with
  | none => .stable
  | some last_reading =>
    if current > last_reading + 15 then .strongUp
    else if current > last_reading + 5 then .up
    else if current < last_reading - 15 then .strongDown
    else if current < last_reading - 5 then .down
    else .stable

/-- Claim C1: `check_glucose_alerts` checks hypoglycemia first, then severe
hyperglycemia, then hyperglycemia, with strict inequalities and mutually
exclusive branches, so at most one alert results; with the default
thresholds {70,180,250}: 69.9 yields hypoglycemia, 250.1 severe
hyperglycemia, 180.1 hyperglycemia, and 150 no alert. -/
theorem check_glucose_alerts_spec : ∀ (cfg : Config) (v : ℚ),
    (check_glucose_alerts cfg v = some .hypoglycemia ↔ v < cfg.hypoglycemia) ∧
    (check_glucose_alerts cfg v = some .severeHyperglycemia ↔
      ¬ v < cfg.hypoglycemia ∧ cfg.severeHyperglycemia < v) ∧
    (check_glucose_alerts cfg v = some .hyperglycemia ↔
      ¬ v < cfg.hypoglycemia ∧ ¬ cfg.severeHyperglycemia < v ∧ cfg.hyperglycemia < v) ∧
    (check_glucose_alerts cfg v = none ↔
      ¬ v < cfg.hypoglycemia ∧ ¬ cfg.severeHyperglycemia < v ∧ ¬ cfg.hyperglycemia < v) ∧
    check_glucose_alerts defaultConfig (69.9 : ℚ) = some .hypoglycemia ∧
    check_glucose_alerts defaultConfig (250.1 : ℚ) = some .severeHyperglycemia ∧
    check_glucose_alerts defaultConfig (180.1 : ℚ) = some .hyperglycemia ∧
    check_glucose_alerts defaultConfig (150 : ℚ) = none := by
  intro cfg v
  refine ⟨?_, ?_, ?_, ?_, ?_, ?_, ?_, ?_⟩
  · unfold check_glucose_alerts; split_ifs <;> simp_all
  · unfold check_glucose_alerts; split_ifs <;> simp_all
  · unfold check_glucose_alerts; split_ifs <;> simp_all
  · unfold check_glucose_alerts; split_ifs <;> simp_all
  · unfold check_glucose_alerts defaultConfig; norm_num
  · unfold check_glucose_alerts defaultConfig; norm_num
  · unfold check_glucose_alerts defaultConfig; norm_num
  · unfold check_glucose_alerts defaultConfig; norm_num

/-- Claim C3: the trend classifier returns StrongUp iff the delta exceeds
15, Up iff it is in (5, 15], StrongDown iff below −15, Down iff in
[−15, −5), Stable otherwise; classifying a value against itself is Stable,
a delta of exactly +15 is Up, and a missing previous value gives Stable. -/
theorem classify_spec : ∀ (current previous : ℚ),
    (classify current (some previous) = .strongUp ↔ 15 < current - previous) ∧
    (classify current (some previous) = .up ↔
      5 < current - previous ∧ current - previous ≤ 15) ∧
    (classify current (some previous) = .strongDown ↔ current - previous < -15) ∧
    (classify current (some previous) = .down ↔
      -15 ≤ current - previous ∧ current - previous < -5) ∧
    (classify current (some previous) = .stable ↔
      -5 ≤ current - previous ∧ current - previous ≤ 5) ∧
    classify current (some current) = .stable ∧
    classify (previous + 15) (some previous) = .up ∧
    classify current none = .stable := by
  intro current previous
  have base : ∀ (c p : ℚ), classify c (some p) =
      (if c > p + 15 then TrendLabel.strongUp
       else if c > p + 5 then TrendLabel.up
       else if c < p - 15 then TrendLabel.strongDown
       else if c < p - 5 then TrendLabel.down
       else TrendLabel.stable) := fun c p => rfl
  refine ⟨?_, ?_, ?_, ?_, ?_, ?_, ?_, rfl⟩ <;>
    rw [base] <;> split_ifs with h1 h2 h3 h4 <;> (try simp) <;>
    first
      | rfl
      | linarith
      | (constructor <;> linarith)
      | (intro a; linarith)

/-- Boolean test that `needle` is an initial segment of `hay`. -/
def startsWith : List Char → List Char → Bool
  | [], _ => true
  | _ :: _, [] => false
  | a :: as, b :: bs => a == b && startsWith as bs

/-- Boolean substring test, embedding Python's `"hypo" in alert_type`. -/
def containsSub (needle : List Char) : List Char → Bool
  | [] => startsWith needle []
  | c :: rest => startsWith needle (c :: rest) || containsSub needle rest

/-- Alert type string for glucose below the hypo threshold. -/
def hypoglycemiaName : String := "hypoglycemia"

/-- Alert type string for glucose above the severe-hyper threshold. -/
def severeHyperglycemiaName : String := "severe_hyperglycemia"

/-- Alert type string for glucose above the hyper threshold. -/
def hyperglycemiaName : String := "hyperglycemia"

/-- Alert type string for a severe hypoglycemia symptom report. -/
def hypoSymptomsName : String := "hypo_symptoms"

/-- Alert type string for a severe hyperglycemia symptom report. -/
def hyperSymptomsName : String := "hyper_symptoms"

/-- The substring `send_alert` searches for inside the alert type. -/
def hypoSub : String := "hypo"

/-- Severity string attached to urgent alerts. -/
def highSeverity : String := "high"

/-- Severity string attached to non-urgent alerts. -/
def mediumSeverity : String := "medium"

/-- Severity computation of `send_alert` (Dia.py:249-255): high when the
alert type equals `"severe_hyperglycemia"` or has `"hypo"` as a substring,
medium otherwise. -/
def alert_severity (alert_type : String) : String :=
  if alert_type == severeHyperglycemiaName
      || containsSub hypoSub.toList alert_type.toList
  then highSeverity
  else mediumSeverity

/-- Counterexample to claim C2: the alert raised for a severe
hyperglycemia symptom report (`"hyper_symptoms"`) is assigned severity
medium by `send_alert`, not high: it is not equal to
`"severe_hyperglycemia"` and does not contain the substring `"hypo"`. -/
theorem alert_severity_hyper_symptoms_medium :
    alert_severity hyperSymptomsName = mediumSeverity ∧
    ¬ alert_severity hyperSymptomsName = highSeverity := by
  constructor
  · rfl
  · intro h
    have h2 : alert_severity hyperSymptomsName = mediumSeverity := rfl
    have h3 : mediumSeverity = highSeverity := h2.symm.trans h
    simp [mediumSeverity, highSeverity] at h3

/-- Claim C2 (amended): `send_alert` assigns severity high to
hypoglycemia, severe hyperglycemia and hypo-symptom alerts, and severity
medium to hyperglycemia and hyper-symptom alerts; every alert type is
assigned one of exactly these two severities. -/
theorem alert_severity_spec :
    alert_severity hypoglycemiaName = highSeverity ∧
    alert_severity severeHyperglycemiaName = highSeverity ∧
    alert_severity hyperglycemiaName = mediumSeverity ∧
    alert_severity hypoSymptomsName = highSeverity ∧
    alert_severity hyperSymptomsName = mediumSeverity ∧
    ∀ alert_type : String,
      alert_severity alert_type = highSeverity ∨
      alert_severity alert_type = mediumSeverity := by
  refine ⟨rfl, rfl, rfl, rfl, rfl, ?_⟩
  intro t
  unfold alert_severity
  split_ifs <;> simp

/-- The two symptom report kinds accepted by `log_symptoms`. -/
inductive SymptomKind
  | hypo
  | hyper
  deriving DecidableEq

/-- Alert type produced by `log_symptoms` for each symptom kind. -/
def symptomAlert : SymptomKind → AlertType
  | .hypo => .hypoSymptoms
  | .hyper => .hyperSymptoms

/-- `log_symptoms` (Dia.py:219-232): records the severity and sends an
alert when severity reaches the configured `hypo_symptoms_severity`
threshold (used for both kinds); the alert sent (if any) is returned.
No range check on the severity is performed. -/
def log_symptoms (cfg : Config) (symptom_type : SymptomKind) (severity : ℚ) :
    Option AlertType :=
  match symptom_type with
  | .hypo =>
      if severity ≥ cfg.hypoSymptomsSeverity then some .hypoSymptoms else none
  | .hyper =>
      if severity ≥ cfg.hypoSymptomsSeverity then some .hyperSymptoms else none

/-- Counterexample to claim C4: severity 15 lies outside [1,10], yet
`log_symptoms` does not reject it — it produces (and the caller persists)
a hypo-symptoms alert, since 15 ≥ the default threshold 7. -/
theorem log_symptoms_no_range_check :
    (10 : ℚ) < 15 ∧
    log_symptoms defaultConfig .hypo 15 = some .hypoSymptoms := by
  constructor
  · norm_num
  · unfold log_symptoms defaultConfig
    norm_num

/-- Claim C4 (amended): neither evaluator validates its input. For every
severity (inside or outside [1,10]) `log_symptoms` simply compares it to
the configured threshold and alerts whenever the threshold is reached, and
for every glucose value `check_glucose_alerts` applies its threshold
tests directly; neither has a rejection path. -/
theorem no_input_validation :
    (∀ (cfg : Config) (kind : SymptomKind) (severity : ℚ),
      log_symptoms cfg kind severity =
        if cfg.hypoSymptomsSeverity ≤ severity then some (symptomAlert kind)
        else none) ∧
    (∀ severity : ℚ, 10 < severity →
      defaultConfig.hypoSymptomsSeverity ≤ severity →
      log_symptoms defaultConfig .hypo severity = some .hypoSymptoms ∧
      log_symptoms defaultConfig .hyper severity = some .hyperSymptoms) := by
  constructor
  · intro cfg kind severity
    cases kind <;> simp [log_symptoms, symptomAlert, ge_iff_le]
  · intro severity _ hle
    constructor <;> simp [log_symptoms, ge_iff_le, hle]

/-- Witness for the amended claim C4 at severity 15. -/
theorem no_input_validation_witness :
    (10 : ℚ) < 15 ∧ defaultConfig.hypoSymptomsSeverity ≤ 15 ∧
    log_symptoms defaultConfig .hypo 15 = some .hypoSymptoms ∧
    log_symptoms defaultConfig .hyper 15 = some .hyperSymptoms := by
  have h10 : (10 : ℚ) < 15 := by norm_num
  have h7 : defaultConfig.hypoSymptomsSeverity ≤ 15 := by
    unfold defaultConfig; norm_num
  obtain ⟨h1, h2⟩ := no_input_validation.2 15 h10 h7
  exact ⟨h10, h7, h1, h2⟩

/-- Python's `round(x, 1)` (Dia.py:157): round to one decimal place. -/
def roundTo1 (x : ℚ) : ℚ := ((round (x * 10) : ℤ) : ℚ) / 10

/-- The clamp `max(50, min(400, ...))` applied to the drawn glucose value
(Dia.py:139). -/
def clampGlucose (x : ℚ) : ℚ := max 50 (min 400 x)

/-- `simulate_glucose_measurement` (Dia.py:125-157) after the random draw:
the drawn value `raw` is clamped to [50, 400], the trend is classified
from the clamped (un-rounded) value against the last stored reading, and
the value returned (and later stored) is rounded to one decimal. -/
def simulate_glucose_measurement (raw : ℚ) (previous : Option ℚ) :
    ℚ × TrendLabel :=
  let glucose_value := clampGlucose raw
  (roundTo1 glucose_value, classify glucose_value previous)

/-- Counterexample to claim C5: for a drawn value of 115.04 against a
previous reading of 100, the stored measurement is (115.0, strongUp) —
the trend was classified from the un-rounded 115.04 > 100 + 15 — but
re-classifying the stored 115.0 against 100 gives up, since
115.0 is not greater than 100 + 15. The persisted trend is therefore not
recomputable from the two persisted readings. -/
theorem stored_trend_not_recomputable :
    (simulate_glucose_measurement (115.04 : ℚ) (some 100)).2 ≠
      classify (simulate_glucose_measurement (115.04 : ℚ) (some 100)).1
        (some 100) := by
  have hclamp : clampGlucose (115.04 : ℚ) = 115.04 := by
    unfold clampGlucose
    rw [min_eq_right (by norm_num), max_eq_right (by norm_num)]
  have hround : roundTo1 (115.04 : ℚ) = 115 := by
    unfold roundTo1
    rw [show ((115.04 : ℚ) * 10) = 1150.4 by norm_num]
    rw [show round (1150.4 : ℚ) = 1150 by rw [round_eq]; norm_num]
    norm_num
  have h2 : (simulate_glucose_measurement (115.04 : ℚ) (some 100)).2 =
      TrendLabel.strongUp := by
    show classify (clampGlucose (115.04 : ℚ)) (some 100) = _
    rw [hclamp]
    unfold classify
    norm_num
  have h1 : (simulate_glucose_measurement (115.04 : ℚ) (some 100)).1 =
      115 := by
    show roundTo1 (clampGlucose (115.04 : ℚ)) = _
    rw [hclamp, hround]
  rw [h1, h2]
  unfold classify
  norm_num
  exact fun h => TrendLabel.noConfusion h

/-- Rounding to one decimal is the identity on values that already have at
most one decimal place. -/
theorem roundTo1_tenth (m : ℤ) : roundTo1 ((m : ℚ) / 10) = (m : ℚ) / 10 := by
  unfold roundTo1
  rw [div_mul_cancel₀ (b := (10 : ℚ)) _ (by norm_num), round_intCast]

/-- Clamping to [50, 400] keeps one-decimal values at one-decimal
precision. -/
theorem clampGlucose_tenth (k : ℤ) :
    ∃ m : ℤ, clampGlucose ((k : ℚ) / 10) = (m : ℚ) / 10 := by
  unfold clampGlucose
  rcases le_or_lt ((k : ℚ) / 10) 50 with h | h
  · exact ⟨500, by rw [min_eq_right (by linarith), max_eq_left h]; norm_num⟩
  · rcases le_or_lt ((k : ℚ) / 10) 400 with h4 | h4
    · exact ⟨k, by rw [min_eq_right h4, max_eq_right h.le]⟩
    · exact ⟨4000, by rw [min_eq_left h4.le,
        max_eq_right (by norm_num : (50 : ℚ) ≤ 400)]; norm_num⟩

/-- Claim C5 (amended): the stored trend label is the pure classification
of the clamped, un-rounded drawn value against the previous stored
reading (Stable when none exists); since the stored value is the drawn
value rounded to one decimal, the trend is recomputable from the two
persisted readings whenever the drawn value already has one-decimal
precision (rounding is then the identity), but not in general. -/
theorem simulate_glucose_measurement_trend :
    (∀ (raw : ℚ) (previous : Option ℚ),
      (simulate_glucose_measurement raw previous).2 =
        classify (clampGlucose raw) previous) ∧
    (∀ (k : ℤ) (previous : Option ℚ),
      (simulate_glucose_measurement ((k : ℚ) / 10) previous).2 =
        classify ((simulate_glucose_measurement ((k : ℚ) / 10) previous).1)
          previous) := by
  constructor
  · intro raw previous
    rfl
  · intro k previous
    obtain ⟨m, hm⟩ := clampGlucose_tenth k
    have h1 : (simulate_glucose_measurement ((k : ℚ) / 10) previous).1 =
        clampGlucose ((k : ℚ) / 10) := by
      show roundTo1 (clampGlucose ((k : ℚ) / 10)) = _
      rw [hm, roundTo1_tenth]
    rw [h1]
    rfl

/-- Sum of the window indices 0..n−1, the x-coordinates of the regression
(Dia.py:322). -/
def sumX (n : ℕ) : ℚ := ∑ i ∈ Finset.range n, (i : ℚ)

/-- Sum of the squared window indices. -/
def sumXsq (n : ℕ) : ℚ := ∑ i ∈ Finset.range n, (i : ℚ) ^ 2

/-- Sum of the window values, the y-coordinates of the regression. -/
def sumY (ys : List ℚ) : ℚ := ys.sum

/-- Sum of index·value over the window. -/
def sumXY (ys : List ℚ) : ℚ :=
  (ys.enum.map fun p => (p.1 : ℚ) * p.2).sum

/-- Slope of the ordinary least-squares line fitted by
`LinearRegression().fit(X, y)` over indices 0..n−1 (Dia.py:327-328). -/
def slope (ys : List ℚ) : ℚ :=
  ((ys.length : ℚ) * sumXY ys - sumX ys.length * sumY ys) /
    ((ys.length : ℚ) * sumXsq ys.length - sumX ys.length ^ 2)

/-- Intercept of the fitted least-squares line. -/
def intercept (ys : List ℚ) : ℚ :=
  (sumY ys - slope ys * sumX ys.length) / (ys.length : ℚ)

/-- The two kinds of forecast breach `predict_glucose_trend` reports. -/
inductive BreachKind
  | predictedHypo
  | predictedSevereHyper
  deriving DecidableEq

/-- One breach message of `predict_glucose_trend` (Dia.py:336-340): the
hours-ahead index `i+1` and the predicted value interpolated into the
message text, plus which threshold was breached. -/
structure Breach where
  hoursAhead : ℕ
  predicted : ℚ
  kind : BreachKind
  deriving DecidableEq

/-- The predicted values `model.predict(future_X)` (Dia.py:331-332):
the fitted line evaluated at indices n, n+1, ..., n+hours−1. -/
def predictions (ys : List ℚ) (hours : ℕ) : List ℚ :=
  (List.range hours).map fun i : ℕ =>
    slope ys * ((ys.length : ℚ) + (i : ℚ)) + intercept ys

/-- The breach-collection loop of `predict_glucose_trend` (Dia.py:335-340)
over a list of predicted values, carrying the hours-ahead counter:
each step appends at most one breach, hypoglycemia checked first. -/
def breachScan (cfg : Config) : ℕ → List ℚ → List Breach
  | _, [] => []
  | k, pred :: rest =>
    if pred < cfg.hypoglycemia then
      ⟨k, pred, .predictedHypo⟩ :: breachScan cfg (k + 1) rest
    else if pred > cfg.severeHyperglycemia then
      ⟨k, pred, .predictedSevereHyper⟩ :: breachScan cfg (k + 1) rest
    else breachScan cfg (k + 1) rest

/-- The prediction-and-breach computation of `predict_glucose_trend` on an
already-extracted window. -/
def predictCore (cfg : Config) (ys : List ℚ) (hours : ℕ) :
    List ℚ × List Breach :=
  (predictions ys hours, breachScan cfg 1 (predictions ys hours))

/-- The window extraction `self.data['blood_glucose'][-window_size:]`
(Dia.py:319): the last `window_size` readings (Python's `[-0:]` slice
returns the whole list when the configured size is 0). -/
def lastWindow (cfg : Config) (history : List ℚ) : List ℚ :=
  if cfg.windowSize = 0 then history
  else history.drop (history.length - cfg.windowSize)

/-- `predict_glucose_trend` (Dia.py:312-345): `none` models the
"Données insuffisantes pour la prédiction" early return when fewer
readings than `window_size` are available; otherwise the linear forecast
and its breach messages over the last `window_size` readings. The `hours`
argument defaults to 4 in the source and the caller in
`generate_diabetes_report` never overrides it. -/
def predict_glucose_trend (cfg : Config) (history : List ℚ) (hours : ℕ) :
    Option (List ℚ × List Breach) :=
  if history.length < cfg.windowSize then none
  else some (predictCore cfg (lastWindow cfg history) hours)

/-- The numeric content of the report of `generate_diabetes_report`
(Dia.py:347-397): statistics and episode counts over the queried window,
plus the embedded forecast output. -/
structure Report where
  meanGlucose : ℚ
  minGlucose : ℚ
  maxGlucose : ℚ
  hypoEpisodes : ℕ
  hyperEpisodes : ℕ
  severeHyperEpisodes : ℕ
  forecast : Option (List ℚ × List Breach)
  deriving DecidableEq

/-- `generate_diabetes_report` (Dia.py:347-397): `none` models the
"Aucune donnée de glycémie disponible pour cette période" early return on
an empty query result. `df_glucose` is the windowed query result the
statistics are computed from; `history` is the in-memory reading series
the embedded `predict_glucose_trend()` call (Dia.py:388) reads, with its
default horizon of 4 hours. -/
def generate_diabetes_report (cfg : Config) (df_glucose : List ℚ)
    (history : List ℚ) : Option Report :=
  match df_glucose with
  | [] => none
  | x :: xs =>
    some {
      meanGlucose := (x :: xs).sum / ((x :: xs).length : ℚ)
      minGlucose := xs.foldl min x
      maxGlucose := xs.foldl max x
      hypoEpisodes :=
        ((x :: xs).filter fun v => decide (v < cfg.hypoglycemia)).length
      hyperEpisodes :=
        ((x :: xs).filter fun v => decide (v > cfg.hyperglycemia)).length
      severeHyperEpisodes :=
        ((x :: xs).filter fun v => decide (v > cfg.severeHyperglycemia)).length
      forecast := predict_glucose_trend cfg history 4 }

/-- Closed form of the index sum. -/
theorem sumX_eq (n : ℕ) : sumX n = (n : ℚ) * ((n : ℚ) - 1) / 2 := by
  induction n with
  | zero => simp [sumX]
  | succ m ih =>
    have h : sumX (m + 1) = sumX m + (m : ℚ) := by
      simp [sumX, Finset.sum_range_succ]
    rw [h, ih]
    push_cast
    ring

/-- Closed form of the squared-index sum. -/
theorem sumXsq_eq (n : ℕ) :
    sumXsq n = (n : ℚ) * ((n : ℚ) - 1) * (2 * (n : ℚ) - 1) / 6 := by
  induction n with
  | zero => simp [sumXsq]
  | succ m ih =>
    have h : sumXsq (m + 1) = sumXsq m + (m : ℚ) ^ 2 := by
      simp [sumXsq, Finset.sum_range_succ]
    rw [h, ih]
    push_cast
    ring

/-- Closed form of the least-squares denominator. -/
theorem lsqDen_eq (n : ℕ) :
    (n : ℚ) * sumXsq n - sumX n ^ 2 =
      (n : ℚ) ^ 2 * ((n : ℚ) - 1) * ((n : ℚ) + 1) / 12 := by
  rw [sumX_eq, sumXsq_eq]
  ring

/-- The least-squares denominator does not vanish on windows of at least
two readings. -/
theorem lsqDen_ne_zero (n : ℕ) (h : 2 ≤ n) :
    (n : ℚ) * sumXsq n - sumX n ^ 2 ≠ 0 := by
  rw [lsqDen_eq]
  have h2 : (2 : ℚ) ≤ (n : ℚ) := by exact_mod_cast h
  have hpos : (0 : ℚ) < (n : ℚ) ^ 2 * ((n : ℚ) - 1) * ((n : ℚ) + 1) / 12 := by
    apply div_pos _ (by norm_num)
    apply mul_pos (mul_pos _ _) <;> nlinarith
  exact ne_of_gt hpos

/-- The fitted line satisfies both least-squares normal equations on
windows of at least two readings. -/
theorem normal_equations_aux (ys : List ℚ) (h : 2 ≤ ys.length) :
    slope ys * sumXsq ys.length + intercept ys * sumX ys.length = sumXY ys ∧
    slope ys * sumX ys.length + intercept ys * (ys.length : ℚ) = sumY ys := by
  have hD := lsqDen_ne_zero ys.length h
  have hn : ((ys.length : ℚ)) ≠ 0 := by
    have h0 : 0 < ys.length := by omega
    exact_mod_cast h0.ne'
  constructor <;> (simp only [slope, intercept]; field_simp; ring)

/-- The normal equations in fact hold for every window: on windows of
fewer than two readings the degenerate division-by-zero convention of the
embedding makes the slope 0 and both sides agree by direct computation. -/
theorem normal_equations (ys : List ℚ) :
    slope ys * sumXsq ys.length + intercept ys * sumX ys.length = sumXY ys ∧
    slope ys * sumX ys.length + intercept ys * (ys.length : ℚ) = sumY ys := by
  match ys with
  | [] =>
    constructor <;> simp [slope, intercept, sumX, sumXsq, sumY, sumXY]
  | [y] =>
    constructor <;>
      simp [slope, intercept, sumX, sumXsq, sumY, sumXY, List.enum]
  | y1 :: y2 :: rest =>
    exact normal_equations_aux _ (by simp)

/-- The breach condition a single predicted value is tested against:
below the hypo threshold (checked first) or above the severe-hyper
threshold. -/
def breachCond (cfg : Config) (b : Breach) : Prop :=
  (b.kind = .predictedHypo ∧ b.predicted < cfg.hypoglycemia) ∨
  (b.kind = .predictedSevereHyper ∧ ¬ b.predicted < cfg.hypoglycemia ∧
    cfg.severeHyperglycemia < b.predicted)

/-- Complete characterization of the breaches collected by the loop of
`predict_glucose_trend`, for an arbitrary starting hours-ahead counter. -/
theorem breachScan_mem (cfg : Config) (ps : List ℚ) :
    ∀ (k : ℕ) (b : Breach),
      b ∈ breachScan cfg k ps ↔
        ∃ j, j < ps.length ∧ b.hoursAhead = j + k ∧
          ps[j]? = some b.predicted ∧ breachCond cfg b := by
  induction ps with
  | nil => intro k b; simp [breachScan]
  | cons p rest ih =>
    intro k b
    obtain ⟨ha, pr, kd⟩ := b
    simp only [breachScan]
    split_ifs with h1 h2
    · simp only [List.mem_cons, ih]
      constructor
      · rintro (heq | ⟨j, hj, hha, hpred, hcond⟩)
        · cases heq
          exact ⟨0, by simp, by omega, by simp, Or.inl ⟨rfl, h1⟩⟩
        · exact ⟨j + 1, by simp; omega, by omega, by simpa using hpred, hcond⟩
      · rintro ⟨j, hj, hha, hpred, hcond⟩
        cases j with
        | zero =>
          left
          simp only [List.getElem?_cons_zero, Option.some.injEq] at hpred
          subst hpred
          rcases hcond with ⟨hk, _⟩ | ⟨hk, hnlt, _⟩
          · simp only at hk hha ⊢
            subst hk
            simp [hha]
          · exact absurd h1 hnlt
        | succ j' =>
          right
          refine ⟨j', by simp at hj; omega, by omega, by simpa using hpred, hcond⟩
    · simp only [List.mem_cons, ih]
      constructor
      · rintro (heq | ⟨j, hj, hha, hpred, hcond⟩)
        · cases heq
          exact ⟨0, by simp, by omega, by simp, Or.inr ⟨rfl, h1, h2⟩⟩
        · exact ⟨j + 1, by simp; omega, by omega, by simpa using hpred, hcond⟩
      · rintro ⟨j, hj, hha, hpred, hcond⟩
        cases j with
        | zero =>
          left
          simp only [List.getElem?_cons_zero, Option.some.injEq] at hpred
          subst hpred
          rcases hcond with ⟨hk, hlt⟩ | ⟨hk, _, _⟩
          · exact absurd hlt h1
          · simp only at hk hha ⊢
            subst hk
            simp [hha]
        | succ j' =>
          right
          refine ⟨j', by simp at hj; omega, by omega, by simpa using hpred, hcond⟩
    · simp only [ih]
      constructor
      · rintro ⟨j, hj, hha, hpred, hcond⟩
        exact ⟨j + 1, by simp; omega, by omega, by simpa using hpred, hcond⟩
      · rintro ⟨j, hj, hha, hpred, hcond⟩
        cases j with
        | zero =>
          simp only [List.getElem?_cons_zero, Option.some.injEq] at hpred
          subst hpred
          rcases hcond with ⟨_, hlt⟩ | ⟨_, hnlt, hgt⟩
          · exact absurd hlt h1
          · exact absurd hgt h2
        | succ j' =>
          exact ⟨j', by simp at hj; omega, by omega, by simpa using hpred, hcond⟩

/-- Every breach collected from a scan starting at counter `k` is at
least `k` hours ahead. -/
theorem breachScan_le (cfg : Config) (ps : List ℚ) :
    ∀ (k : ℕ) (b : Breach), b ∈ breachScan cfg k ps → k ≤ b.hoursAhead := by
  induction ps with
  | nil => intro k b h; simp [breachScan] at h
  | cons p rest ih =>
    intro k b h
    simp only [breachScan] at h
    split_ifs at h with h1 h2
    · rcases List.mem_cons.1 h with rfl | h'
      · exact le_refl k
      · exact le_trans (Nat.le_succ k) (ih (k + 1) b h')
    · rcases List.mem_cons.1 h with rfl | h'
      · exact le_refl k
      · exact le_trans (Nat.le_succ k) (ih (k + 1) b h')
    · exact le_trans (Nat.le_succ k) (ih (k + 1) b h)

/-- Breaches are collected in strictly increasing hours-ahead order, so
they are chronological and no step produces two breaches. -/
theorem breachScan_pairwise (cfg : Config) (ps : List ℚ) :
    ∀ k, List.Pairwise (fun a b => a.hoursAhead < b.hoursAhead)
      (breachScan cfg k ps) := by
  induction ps with
  | nil => intro k; simp [breachScan]
  | cons p rest ih =>
    intro k
    simp only [breachScan]
    split_ifs with h1 h2
    · exact List.Pairwise.cons
        (fun b hb => lt_of_lt_of_le (Nat.lt_succ_self k)
          (breachScan_le cfg rest (k + 1) b hb)) (ih (k + 1))
    · exact List.Pairwise.cons
        (fun b hb => lt_of_lt_of_le (Nat.lt_succ_self k)
          (breachScan_le cfg rest (k + 1) b hb)) (ih (k + 1))
    · exact ih (k + 1)

/-- Claim C6: on a window of n readings the forecaster fits an ordinary
least-squares line (its slope and intercept satisfy both normal
equations), predicts the fitted line's value at each index n, ..., n+h−1,
compares each prediction against the hypo and severe-hyper thresholds,
and emits breach records (hours-ahead index, predicted value) in
chronological order with at most one breach per step (the hours-ahead
indices are strictly increasing); a history of at least `window_size`
readings is forecast from its last `window_size` readings. -/
theorem predict_glucose_trend_spec :
    ∀ (ys : List ℚ) (hours : ℕ) (cfg : Config),
    (∀ i, i < hours → (predictions ys hours)[i]? =
      some (slope ys * ((ys.length : ℚ) + (i : ℚ)) + intercept ys)) ∧
    slope ys * sumXsq ys.length + intercept ys * sumX ys.length = sumXY ys ∧
    slope ys * sumX ys.length + intercept ys * (ys.length : ℚ) = sumY ys ∧
    (∀ b : Breach, b ∈ (predictCore cfg ys hours).2 ↔
      ∃ i, i < hours ∧ b.hoursAhead = i + 1 ∧
        (predictions ys hours)[i]? = some b.predicted ∧ breachCond cfg b) ∧
    List.Pairwise (fun a b => a.hoursAhead < b.hoursAhead)
      (predictCore cfg ys hours).2 ∧
    (cfg.windowSize ≤ ys.length →
      predict_glucose_trend cfg ys hours =
        some (predictCore cfg (lastWindow cfg ys) hours)) := by
  intro ys hours cfg
  have hlen : (predictions ys hours).length = hours := by
    rw [predictions, List.length_map, List.length_range]
  refine ⟨?_, (normal_equations ys).1, (normal_equations ys).2, ?_, ?_, ?_⟩
  · intro i hi
    rw [predictions, List.getElem?_map, List.getElem?_range hi]
    rfl
  · intro b
    have h := breachScan_mem cfg (predictions ys hours) 1 b
    rw [hlen] at h
    exact h
  · exact breachScan_pairwise cfg (predictions ys hours) 1
  · intro h
    simp [predict_glucose_trend, Nat.not_lt.2 h]

/-- Witness for claim C6: the forecast over a 10-reading history with the
default configuration takes the branch that computes predictions, and the
collected breaches are in strictly increasing hours-ahead order. -/
theorem predict_glucose_trend_spec_witness :
    defaultConfig.windowSize ≤
      ([100, 110, 120, 130, 140, 150, 160, 170, 180, 190] : List ℚ).length ∧
    predict_glucose_trend defaultConfig
        [100, 110, 120, 130, 140, 150, 160, 170, 180, 190] 4 =
      some (predictCore defaultConfig
        (lastWindow defaultConfig
          [100, 110, 120, 130, 140, 150, 160, 170, 180, 190]) 4) ∧
    List.Pairwise (fun a b => a.hoursAhead < b.hoursAhead)
      (predictCore defaultConfig
        [100, 110, 120, 130, 140, 150, 160, 170, 180, 190] 4).2 := by
  have hle : defaultConfig.windowSize ≤
      ([100, 110, 120, 130, 140, 150, 160, 170, 180, 190] : List ℚ).length := by
    simp [defaultConfig]
  have h := predict_glucose_trend_spec
    [100, 110, 120, 130, 140, 150, 160, 170, 180, 190] 4 defaultConfig
  exact ⟨hle, h.2.2.2.2.2 hle, h.2.2.2.2.1⟩

/-- Claim C7: a forecast over a history shorter than the configured
`window_size` returns the non-fatal "Données insuffisantes" result
(modelled as `none`) and computes no predictions or breach alerts. -/
theorem predict_glucose_trend_insufficient :
    ∀ (cfg : Config) (history : List ℚ) (hours : ℕ),
    history.length < cfg.windowSize →
    predict_glucose_trend cfg history hours = none := by
  intro cfg history hours h
  simp [predict_glucose_trend, h]

/-- Witness for claim C7: two readings are fewer than the default window
size of 10, so the forecast reports insufficient data. -/
theorem predict_glucose_trend_insufficient_witness :
    ([100, 110] : List ℚ).length < defaultConfig.windowSize ∧
    predict_glucose_trend defaultConfig [100, 110] 4 = none := by
  have h : ([100, 110] : List ℚ).length < defaultConfig.windowSize := by
    simp [defaultConfig]
  exact ⟨h, predict_glucose_trend_insufficient defaultConfig [100, 110] 4 h⟩

/-- Claim C8: a report over an empty measurement window is the
"Aucune donnée de glycémie disponible" result (modelled as `none`);
no statistics or episode counts are computed. -/
theorem generate_diabetes_report_empty :
    ∀ (cfg : Config) (history : List ℚ),
    generate_diabetes_report cfg [] history = none := by
  intro cfg history
  rfl

/-- Claim C9: on a non-empty window the report counts readings strictly
below the hypo threshold (hypo episodes), strictly above the hyper
threshold (hyper episodes, including readings also above severe-hyper),
and strictly above the severe-hyper threshold (severe episodes), as
three independent non-exclusive filters; whenever the hyper threshold is
at most the severe-hyper threshold (as in every sane configuration,
e.g. the default 180 ≤ 250), the severe count is at most the hyper
count. -/
theorem generate_diabetes_report_episodes :
    ∀ (cfg : Config) (x : ℚ) (xs : List ℚ) (history : List ℚ),
    (generate_diabetes_report cfg (x :: xs) history).map Report.hypoEpisodes =
      some ((x :: xs).countP fun v => decide (v < cfg.hypoglycemia)) ∧
    (generate_diabetes_report cfg (x :: xs) history).map Report.hyperEpisodes =
      some ((x :: xs).countP fun v => decide (cfg.hyperglycemia < v)) ∧
    (generate_diabetes_report cfg (x :: xs) history).map
        Report.severeHyperEpisodes =
      some ((x :: xs).countP fun v => decide (cfg.severeHyperglycemia < v)) ∧
    (cfg.hyperglycemia ≤ cfg.severeHyperglycemia →
      ((x :: xs).countP fun v => decide (cfg.severeHyperglycemia < v)) ≤
        (x :: xs).countP fun v => decide (cfg.hyperglycemia < v)) := by
  intro cfg x xs history
  refine ⟨?_, ?_, ?_, ?_⟩
  · simp [generate_diabetes_report, List.countP_eq_length_filter]
  · simp [generate_diabetes_report, List.countP_eq_length_filter]
  · simp [generate_diabetes_report, List.countP_eq_length_filter]
  · intro h
    apply List.countP_mono_left
    intro v _ hv
    simp only [decide_eq_true_eq] at hv ⊢
    linarith

/-- Witness for claim C9: with the default thresholds 180 ≤ 250, on the
window [300, 200, 60] the severe count is bounded by the hyper count. -/
theorem generate_diabetes_report_episodes_witness :
    defaultConfig.hyperglycemia ≤ defaultConfig.severeHyperglycemia ∧
    (([300, 200, 60] : List ℚ).countP fun v =>
        decide (defaultConfig.severeHyperglycemia < v)) ≤
      ([300, 200, 60] : List ℚ).countP fun v =>
        decide (defaultConfig.hyperglycemia < v) := by
  have h : defaultConfig.hyperglycemia ≤ defaultConfig.severeHyperglycemia := by
    unfold defaultConfig
    norm_num
  exact ⟨h,
    (generate_diabetes_report_episodes defaultConfig 300 [200, 60] []).2.2.2 h⟩

/-- The breach-collection loop reads only the two glucose thresholds of
the configuration, never `forecastHours`. -/
theorem breachScan_forecastHours (cfg : Config) (fh : ℕ) :
    ∀ (ps : List ℚ) (k : ℕ),
      breachScan { cfg with forecastHours := fh } k ps =
        breachScan cfg k ps := by
  intro ps
  induction ps with
  | nil => intro k; rfl
  | cons p rest ih =>
    intro k
    simp only [breachScan]
    rw [ih]

/-- The forecaster never reads `forecastHours` from the configuration. -/
theorem predict_forecastHours (cfg : Config) (fh : ℕ) (history : List ℚ)
    (hours : ℕ) :
    predict_glucose_trend { cfg with forecastHours := fh } history hours =
      predict_glucose_trend cfg history hours := by
  unfold predict_glucose_trend predictCore
  have hlw : lastWindow { cfg with forecastHours := fh } history =
      lastWindow cfg history := rfl
  rw [hlw, breachScan_forecastHours]

/-- The report generator never reads `forecastHours` from the
configuration. -/
theorem report_forecastHours (cfg : Config) (fh : ℕ)
    (df_glucose history : List ℚ) :
    generate_diabetes_report { cfg with forecastHours := fh }
        df_glucose history =
      generate_diabetes_report cfg df_glucose history := by
  cases df_glucose with
  | nil => rfl
  | cons x xs =>
    unfold generate_diabetes_report
    rw [predict_forecastHours]

/-- Claim C10: the configured `prediction_settings.forecast_hours` value
never influences the forecaster or the report: two configurations that
differ only in that field produce identical forecasts and identical
reports on every input, and the forecast a report embeds is always
computed with the function's default horizon argument of 4 hours. -/
theorem forecast_hours_unused :
    ∀ (cfg : Config) (fh1 fh2 : ℕ) (history df_glucose : List ℚ)
      (hours : ℕ),
    predict_glucose_trend { cfg with forecastHours := fh1 } history hours =
      predict_glucose_trend { cfg with forecastHours := fh2 } history hours ∧
    generate_diabetes_report { cfg with forecastHours := fh1 }
        df_glucose history =
      generate_diabetes_report { cfg with forecastHours := fh2 }
        df_glucose history ∧
    (generate_diabetes_report cfg df_glucose history).map Report.forecast =
      (if df_glucose.isEmpty then none
       else some (predict_glucose_trend cfg history 4)) := by
  intro cfg fh1 fh2 history df_glucose hours
  refine ⟨?_, ?_, ?_⟩
  · rw [predict_forecastHours cfg fh1 history hours,
        predict_forecastHours cfg fh2 history hours]
  · rw [report_forecastHours cfg fh1 df_glucose history,
        report_forecastHours cfg fh2 df_glucose history]
  · cases df_glucose <;> simp [generate_diabetes_report]

/-- Witness for claim C1 at glucose 60 with the default thresholds. -/
theorem check_glucose_alerts_spec_witness :
    check_glucose_alerts defaultConfig 60 = some AlertType.hypoglycemia ↔
      (60 : ℚ) < defaultConfig.hypoglycemia :=
  (check_glucose_alerts_spec defaultConfig 60).1

/-- Witness for the amended claim C2 at the hyperglycemia alert type. -/
theorem alert_severity_spec_witness :
    alert_severity hyperglycemiaName = highSeverity ∨
    alert_severity hyperglycemiaName = mediumSeverity :=
  alert_severity_spec.2.2.2.2.2 hyperglycemiaName

/-- Witness for claim C3 at the reading pair (120, 100). -/
theorem classify_spec_witness :
    classify (120 : ℚ) (some 100) = TrendLabel.strongUp ↔
      (15 : ℚ) < 120 - 100 :=
  (classify_spec 120 100).1

/-- Witness for the amended claim C5 at the one-decimal drawn value
115.0 against a previous reading of 100. -/
theorem simulate_glucose_measurement_trend_witness :
    (simulate_glucose_measurement (((1150 : ℤ) : ℚ) / 10) (some 100)).2 =
      classify
        ((simulate_glucose_measurement (((1150 : ℤ) : ℚ) / 10)
          (some 100)).1) (some 100) :=
  simulate_glucose_measurement_trend.2 1150 (some 100)

/-- Witness for claim C8 with the default configuration. -/
theorem generate_diabetes_report_empty_witness :
    generate_diabetes_report defaultConfig [] [] = none :=
  generate_diabetes_report_empty defaultConfig []

/-- Witness for claim C10: configured horizons 8 and 12 produce the same
forecast on an empty history. -/
theorem forecast_hours_unused_witness :
    predict_glucose_trend { defaultConfig with forecastHours := 8 } [] 4 =
      predict_glucose_trend { defaultConfig with forecastHours := 12 } [] 4 :=
  (forecast_hours_unused defaultConfig 8 12 [] [] 4).1

end Dia
